import Mathlib

/-!
Shallow embedding of the request-signing module `botocore/auth.py`
(together with the `HTTPHeaders` semantics it relies on, defined in
`botocore/compat.py` on top of `email.message.Message`).

Conventions of the embedding:
* Python (byte-)strings are Lean `String`s; all reasoning stays within the
  ASCII range, where Python 2 byte semantics and Lean code points coincide.
* `HTTPHeaders` (an `email.message.Message` subclass) is an ordered,
  case-insensitive multi-map: `__setitem__` APPENDS a new header line,
  `__delitem__` removes every line with a matching (case-folded) name,
  `get_all` returns all values for a name in insertion order, `__getitem__`
  returns the first one, and iteration yields every stored name in order.
* Python `dict`s (the v2 parameter map) are insertion-ordered association
  lists with replace-on-set semantics; all dicts handled here have unique
  keys by construction.
* Cryptographic primitives (SHA-256, HMAC digests) are opaque to the
  claims considered here, so they are passed in as an explicit record of
  functions; hex and base64 encodings are implemented concretely.
* Python's stable `sort`/`sorted` is embedded as `List.insertionSort`
  with the corresponding (total, transitive) comparison relation; for a
  total preorder every stable sort produces the same output.
-/

deriving instance DecidableEq for Except

namespace Botocore

/-! ### Python string primitives -/

/-- `str.lower()` for byte strings: lowercases ASCII A-Z only. -/
def pyLower (s : String) : String := String.mk (s.data.map Char.toLower)

/-- `str.upper()` for byte strings: uppercases ASCII a-z only. -/
def pyUpper (s : String) : String := String.mk (s.data.map Char.toUpper)

def isPySpace (c : Char) : Bool :=
  c = ' ' || c = '\t' || c = '\n' || c = '\r' || c = '\x0b' || c = '\x0c'

/-- `str.strip()`: drop leading and trailing whitespace. -/
def pyStrip (s : String) : String :=
  String.mk (((s.data.dropWhile isPySpace).reverse.dropWhile isPySpace).reverse)

/-- Byte-wise lexicographic `<=` on (byte-)strings, as Python compares them. -/
def charListLe : List Char → List Char → Bool
  | [], _ => true
  | _ :: _, [] => false
  | a :: as, b :: bs => if a = b then charListLe as bs else decide (a < b)

def strLe (a b : String) : Prop := charListLe a.data b.data = true

instance : DecidableRel strLe := fun a b =>
  inferInstanceAs (Decidable (charListLe a.data b.data = true))

/-- `s.startswith(pre)`. -/
def pyStartsWith (s pre : String) : Bool := pre.data.isPrefixOf s.data

/-- UTF-8 encoding of one character (`unicode.encode('utf-8')`). -/
def utf8Char (c : Char) : List Nat :=
  let n := c.toNat
  if n < 0x80 then [n]
  else if n < 0x800 then [0xC0 + n / 0x40, 0x80 + n % 0x40]
  else if n < 0x10000 then
    [0xE0 + n / 0x1000, 0x80 + n / 0x40 % 0x40, 0x80 + n % 0x40]
  else
    [0xF0 + n / 0x40000, 0x80 + n / 0x1000 % 0x40,
     0x80 + n / 0x40 % 0x40, 0x80 + n % 0x40]

/-- `s.encode('utf-8')` as a byte list. -/
def utf8 (s : String) : List Nat := (s.data.map utf8Char).foldr (· ++ ·) []

/-! ### Hex, percent-encoding and base64 -/

def hexDigitUpper (n : Nat) : Char :=
  if n < 10 then Char.ofNat (48 + n) else Char.ofNat (55 + n)

def hexDigitLower (n : Nat) : Char :=
  if n < 10 then Char.ofNat (48 + n) else Char.ofNat (87 + n)

/-- `hexdigest()` rendering of a byte list (lowercase). -/
def bytesToHex (bs : List Nat) : String :=
  String.mk (bs.foldr (fun b acc => hexDigitLower (b / 16 % 16) :: hexDigitLower (b % 16) :: acc) [])

/-- Characters Python 2 `urllib.quote` never escapes, irrespective of `safe`. -/
def alwaysSafe (c : Char) : Bool :=
  c.isAlpha || c.isDigit || c = '_' || c = '.' || c = '-'

def quoteChar (safe : List Char) (c : Char) : List Char :=
  if alwaysSafe c || safe.contains c then [c]
  else ['%', hexDigitUpper (c.toNat / 16 % 16), hexDigitUpper (c.toNat % 16)]

/-- Python 2 `urllib.quote(s, safe)` (for byte strings; code points < 256). -/
def quote (s : String) (safe : List Char) : String :=
  String.mk ((s.data.map (quoteChar safe)).foldr (· ++ ·) [])

def unhexDigit (c : Char) : Option Nat :=
  if '0' ≤ c && c ≤ '9' then some (c.toNat - 48)
  else if 'A' ≤ c && c ≤ 'F' then some (c.toNat - 55)
  else if 'a' ≤ c && c ≤ 'f' then some (c.toNat - 87)
  else none

/-- Python 2 `urllib.unquote`: decode `%XX` (two hex digits) escapes,
leaving malformed escapes untouched. -/
def unquoteChars : List Char → List Char
  | [] => []
  | '%' :: a :: b :: rest =>
    match unhexDigit a, unhexDigit b with
    | some hi, some lo => Char.ofNat (16 * hi + lo) :: unquoteChars rest
    | _, _ => '%' :: unquoteChars (a :: b :: rest)
  | c :: rest => c :: unquoteChars rest

def pyUnquote (s : String) : String := String.mk (unquoteChars s.data)

def base64Char (n : Nat) : Char :=
  if n < 26 then Char.ofNat (65 + n)
  else if n < 52 then Char.ofNat (97 + (n - 26))
  else if n < 62 then Char.ofNat (48 + (n - 52))
  else if n = 62 then '+' else '/'

/-- `base64.b64encode` of a byte list. -/
def base64Encode : List Nat → List Char
  | [] => []
  | [a] =>
    [base64Char (a / 4), base64Char (a % 4 * 16), '=', '=']
  | [a, b] =>
    [base64Char (a / 4), base64Char (a % 4 * 16 + b / 16),
     base64Char (b % 16 * 4), '=']
  | a :: b :: c :: rest =>
    base64Char (a / 4) :: base64Char (a % 4 * 16 + b / 16) ::
    base64Char (b % 16 * 4 + c / 64) :: base64Char (c % 64) ::
    base64Encode rest

def b64encode (bs : List Nat) : String := String.mk (base64Encode bs)

/-! ### HTTPHeaders (email.message.Message) semantics -/

/-- The ordered multi-map of header lines, in insertion order. -/
abbrev Headers := List (String × String)

/-- Case-insensitive name match, as `Message` performs it. -/
def lowerEq (a b : String) : Bool := pyLower a == pyLower b

/-- `name in headers`. -/
def hcontains (h : Headers) (name : String) : Bool :=
  h.any (fun p => lowerEq p.1 name)

/-- `headers.get_all(name)`: every value stored under `name`, in order. -/
def getAll (h : Headers) (name : String) : List String :=
  (h.filter (fun p => lowerEq p.1 name)).map Prod.snd

/-- `headers[name]`: the first value stored under `name`. -/
def getFirst (h : Headers) (name : String) : Option String :=
  (h.find? (fun p => lowerEq p.1 name)).map Prod.snd

/-- `headers[name] = value`: `Message.__setitem__` APPENDS a header line. -/
def setItem (h : Headers) (name value : String) : Headers :=
  h ++ [(name, value)]

/-- `del headers[name]`: removes every line whose name matches. -/
def delItem (h : Headers) (name : String) : Headers :=
  h.filter (fun p => !lowerEq p.1 name)

/-- The stored header names, in order, duplicates included (iteration). -/
def hnames (h : Headers) : List String := h.map Prod.fst

/-- Number of header lines stored under a (case-folded) name. -/
def countName (h : Headers) (name : String) : Nat :=
  (h.filter (fun p => lowerEq p.1 name)).length

/-! ### Python dict (ordered, replace-on-set) -/

abbrev Dict := List (String × String)

def dset (d : Dict) (k v : String) : Dict :=
  if d.any (fun p => p.1 == k) then
    d.map (fun p => if p.1 == k then (k, v) else p)
  else d ++ [(k, v)]

def dget (d : Dict) (k : String) : String :=
  ((d.find? (fun p => p.1 == k)).map Prod.snd).getD ""

def dkeys (d : Dict) : List String := d.map Prod.fst

/-! ### Data model: credentials, URL split, body, request -/

/-- `botocore.credentials.Credentials` as consumed here. The empty string
stands for an absent/falsy `token` (Python treats both `None` and `''` as
false in `if self.credentials.token:`). -/
structure Credentials where
  access_key : String
  secret_key : String
  token : String
deriving DecidableEq

/-- The result of `urlsplit(request.url)`, taken as given (URL parsing is
outside the signing module). -/
structure SplitUrl where
  netloc : String
  path : String
  query : String
deriving DecidableEq

/-- One in-memory byte stream: a seekable file-like object. -/
structure ByteStream where
  data : List Nat
  pos : Nat
deriving DecidableEq

def bsTell (s : ByteStream) : Nat := s.pos

/-- `stream.read(n)`: up to `n` bytes from the current position. -/
def bsRead (s : ByteStream) (n : Nat) : List Nat × ByteStream :=
  ((s.data.drop s.pos).take n,
   { s with pos := s.pos + ((s.data.drop s.pos).take n).length })

/-- `stream.seek(p)` (absolute). -/
def bsSeek (s : ByteStream) (p : Nat) : ByteStream := { s with pos := p }

/-- `request.body`: absent, a string, a seekable stream, or a file-like
object that has `read` but no `seek` attribute. -/
inductive Body where
  | none
  | str (s : String)
  | stream (bs : ByteStream)
  | rawStream (bs : ByteStream)
deriving DecidableEq

/-- The prepared request handed to `add_auth`, with its URL pre-split. -/
structure Request where
  method : String
  url : SplitUrl
  headers : Headers
  /-- `request.params`: structured query params (v4 canonical query branch). -/
  params : Dict
  /-- `request.param`: the GET query dict mutated by the v2 signer. -/
  param : Dict
  /-- `request.data`: the POST body dict mutated by the v2 signer. -/
  data : Dict
  body : Body
deriving DecidableEq

/-- Exceptions this module can raise (plus, for comparison, the
`UnseekableStreamError` from `botocore/exceptions.py`). -/
inductive PyErr where
  | noCredentials
  | attributeError
  | unseekableStream
deriving DecidableEq

/-- The cryptographic primitives used by `auth.py`, kept abstract: raw
SHA-256, and HMAC digests keyed with SHA-256 / SHA-1. -/
structure Crypto where
  sha256 : List Nat → List Nat
  hmacSha256 : List Nat → List Nat → List Nat
  hmacSha1 : List Nat → List Nat → List Nat

/-- `sha256(bytes).hexdigest()`. -/
def Crypto.sha256hex (C : Crypto) (bs : List Nat) : String :=
  bytesToHex (C.sha256 bs)

/-- `hmac.new(key, msg, sha256).hexdigest()`. -/
def Crypto.hmacSha256hex (C : Crypto) (key msg : List Nat) : String :=
  bytesToHex (C.hmacSha256 key msg)

/-- The hardcoded hex SHA-256 of the empty byte string (`EMPTY_SHA256_HASH`). -/
def EMPTY_SHA256_HASH : String :=
  "e3b0c44298fc1c149afbf4c8996fb92427ae41e4649b934ca495991b7852b855"

/-- `PAYLOAD_BUFFER`: the 1 MiB chunk size used for body checksums. -/
def PAYLOAD_BUFFER : Nat := 1024 * 1024

/-! ### SigV2Auth -/

/-- `SigV2Auth.calc_signature`: returns `(qs, base64-HMAC-SHA256 signature)`. -/
def calc_signature (C : Crypto) (creds : Credentials) (r : Request)
    (params : Dict) : String × String :=
  let path := if r.url.path = "" then "/" else r.url.path
  let string_to_sign := r.method ++ "\n" ++ r.url.netloc ++ "\n" ++ path ++ "\n"
  let pairs := ((dkeys params).insertionSort strLe).map
    (fun k => quote k [] ++ "=" ++ quote (dget params k) ['-', '_', '~'])
  let qs := String.intercalate "&" pairs
  let sts := string_to_sign ++ qs
  (qs, b64encode (C.hmacSha256 (utf8 creds.secret_key) (utf8 sts)))

/-- `SigV2Auth.add_auth`; `ts` is the injected `Timestamp` value.
Returns the (possibly raised) exception together with the request as the
caller observes it afterwards. -/
def sigV2AddAuth (C : Crypto) (creds : Option Credentials) (ts : String)
    (r : Request) : Option PyErr × Request :=
  match creds with
  | .none => (some .noCredentials, r)
  | .some c =>
    let isPost := r.data ≠ []
    let p := if isPost then r.data else r.param
    let p := dset p "AWSAccessKeyId" c.access_key
    let p := dset p "SignatureVersion" "2"
    let p := dset p "SignatureMethod" "HmacSHA256"
    let p := dset p "Timestamp" ts
    let p := if c.token ≠ "" then dset p "SecurityToken" c.token else p
    let p := dset p "Signature" (calc_signature C c r p).2
    (none, if isPost then { r with data := p } else { r with param := p })

/-! ### SigV3Auth -/

/-- `SigV3Auth.add_auth`; `dateStr` is the injected `formatdate` value. -/
def sigV3AddAuth (C : Crypto) (creds : Option Credentials) (dateStr : String)
    (r : Request) : Option PyErr × Request :=
  match creds with
  | .none => (some .noCredentials, r)
  | .some c =>
    let h := if hcontains r.headers "Date" then r.headers
             else setItem r.headers "Date" dateStr
    let h := if c.token ≠ "" then setItem h "X-Amz-Security-Token" c.token else h
    let dateVal := (getFirst h "Date").getD ""
    let sig := b64encode (C.hmacSha256 (utf8 c.secret_key) (utf8 dateVal))
    let auth := "AWS3-HTTPS AWSAccessKeyId=" ++ c.access_key ++
      ",Algorithm=HmacSHA256,Signature=" ++ sig
    (none, { r with headers := setItem h "X-Amzn-Authorization" auth })

/-! ### SigV4Auth -/

/-- `SigV4Auth.headers_to_sign`: copy every header under its lowercased
name (appending, so multi-valued headers keep all their values), then add
a synthetic `host` header from the URL authority if absent. -/
def headers_to_sign (r : Request) : Headers :=
  let header_map : Headers := r.headers.map (fun p => (pyLower p.1, p.2))
  if hcontains header_map "host" then header_map
  else setItem header_map "host" r.url.netloc

/-- The v4 `quote` safe set (used for keys and values in both branches). -/
def safeV4 : List Char := ['-', '_', '.', '~']

/-- `SigV4Auth._canonical_query_string_params`, before the `&`-join: the
whole percent-encoded `key=value` strings, sorted as full strings. -/
def canonical_query_string_params_list (params : Dict) : List String :=
  (params.map (fun p => quote p.1 safeV4 ++ "=" ++ quote p.2 safeV4)).insertionSort strLe

def canonical_query_string_params (params : Dict) : String :=
  String.intercalate "&" (canonical_query_string_params_list params)

/-- `a.split(c)` on a character, Python semantics (`''.split(c) == ['']`). -/
def splitOnCharAux (c : Char) : List Char → List Char → List (List Char)
  | acc, [] => [acc.reverse]
  | acc, x :: xs =>
    if x = c then acc.reverse :: splitOnCharAux c [] xs
    else splitOnCharAux c (x :: acc) xs

def pySplit (c : Char) (s : String) : List String :=
  (splitOnCharAux c [] s.data).map String.mk

/-- `a.split('=', 1)`: at most one split, so 1 or 2 fields. -/
def splitOnceEq (s : String) : List String :=
  let pre := s.data.takeWhile (fun c => c ≠ '=')
  let post := s.data.dropWhile (fun c => c ≠ '=')
  match post with
  | [] => [s]
  | _ :: rest => [String.mk pre, String.mk rest]

/-- `operator.itemgetter(0)` applied to a string: its first character.
(The sort key used by `_canonical_query_string_url`.) -/
def firstCharLe (a b : String) : Prop := a.data.headD ' ' ≤ b.data.headD ' '

instance : DecidableRel firstCharLe := fun a b =>
  inferInstanceAs (Decidable (a.data.headD ' ' ≤ b.data.headD ' '))

/-- `SigV4Auth._canonical_query_string_url`, before the `&`-join: encoded
pairs sorted (stably) by `itemgetter(0)`, i.e. by first character only. -/
def canonical_query_string_url_list (query : String) : List String :=
  let qsa := (pySplit '&' query).map splitOnceEq
  let quoted_qsa := qsa.filterMap (fun q =>
    match q with
    | [k, v] => some (quote k safeV4 ++ "=" ++ quote (pyUnquote v) safeV4)
    | [k] => some (quote k safeV4 ++ "=")
    | _ => Option.none)
  quoted_qsa.insertionSort firstCharLe

def canonical_query_string_url (query : String) : String :=
  if query = "" then ""
  else
    let quoted_qsa := canonical_query_string_url_list query
    if quoted_qsa.length > 0 then String.intercalate "&" quoted_qsa else ""

/-- `SigV4Auth.canonical_query_string`: structured params if present (truthy),
else the raw URL query component. -/
def canonical_query_string (r : Request) : String :=
  if r.params ≠ [] then canonical_query_string_params r.params
  else canonical_query_string_url r.url.query

/-- `SigV4Auth.canonical_headers`: one line per distinct name, names
sorted; each line joins the (sorted, then stripped) values with commas. -/
def canonical_headers (headers_to_sign : Headers) : String :=
  let sorted_header_names := ((hnames headers_to_sign).dedup).insertionSort strLe
  let headers := sorted_header_names.map (fun key =>
    key ++ ":" ++ String.intercalate ","
      (((getAll headers_to_sign key).insertionSort strLe).map pyStrip))
  String.intercalate "\n" headers

/-- `SigV4Auth.signed_headers`. -/
def signed_headers (headers_to_sign : Headers) : String :=
  let l := ((hnames headers_to_sign).dedup).map (fun n => pyStrip (pyLower n))
  String.intercalate ";" (l.insertionSort strLe)

/-- The read loop `for chunk in iter(partial(body.read, n), b'')`. -/
def readLoop (n : Nat) (s : ByteStream) : List Nat × ByteStream :=
  if h : (bsRead s n).1 = [] then ([], (bsRead s n).2)
  else
    have hlt : ((bsRead s n).2).data.length - ((bsRead s n).2).pos <
        s.data.length - s.pos := by
      have hpos : s.pos < s.data.length := by
        by_contra hge
        apply h
        show (s.data.drop s.pos).take n = []
        rw [List.drop_eq_nil_of_le (Nat.le_of_not_lt hge), List.take_nil]
      have hchunk : 0 < ((s.data.drop s.pos).take n).length :=
        List.length_pos.mpr h
      show s.data.length - (s.pos + ((s.data.drop s.pos).take n).length) <
        s.data.length - s.pos
      omega
    ((bsRead s n).1 ++ (readLoop n (bsRead s n).2).1,
     (readLoop n (bsRead s n).2).2)
termination_by s.data.length - s.pos

/-- Lines 231-240 of `SigV4Auth.payload`: the seekable-stream branch.
Remembers `tell()`, reads in `PAYLOAD_BUFFER` chunks, hex-digests, and
seeks back to the remembered position. -/
def payloadOnStream (C : Crypto) (bs : ByteStream) : String × ByteStream :=
  let position := bsTell bs
  let hex_checksum := C.sha256hex (readLoop PAYLOAD_BUFFER bs).1
  (hex_checksum, bsSeek (readLoop PAYLOAD_BUFFER bs).2 position)

/-- `SigV4Auth.payload`. A truthy body without a `seek` attribute falls
into the string branch, whose `request.body.encode('utf-8')` raises
`AttributeError` on a file-like object. -/
def payload (C : Crypto) (r : Request) : Except PyErr (String × Request) :=
  match r.body with
  | .stream bs =>
    let (hex, bs') := payloadOnStream C bs
    .ok (hex, { r with body := .stream bs' })
  | .str s =>
    if s ≠ "" then .ok (C.sha256hex (utf8 s), r)
    else .ok (EMPTY_SHA256_HASH, r)
  | .rawStream _ => .error .attributeError
  | .none => .ok (EMPTY_SHA256_HASH, r)

/-- Lines 254-257 of `SigV4Auth.canonical_request`: the payload hash is
the `X-Amz-Content-SHA256` header if present, else `payload(request)`. -/
def body_checksum (C : Crypto) (r : Request) : Except PyErr (String × Request) :=
  if hcontains r.headers "X-Amz-Content-SHA256" then
    .ok ((getFirst r.headers "X-Amz-Content-SHA256").getD "", r)
  else payload C r

/-- `SigV4Auth.canonical_request`; `np` is the path normalization policy
(`normalize_url_path` for v4, the identity for the S3 sub-variant). -/
def canonical_request (C : Crypto) (np : String → String) (r : Request) :
    Except PyErr (String × Request) :=
  match body_checksum C r with
  | .error e => .error e
  | .ok (body_checksum, r') =>
    let hts := headers_to_sign r
    .ok (String.intercalate "\n"
      [pyUpper r.method, np r.url.path, canonical_query_string r,
       canonical_headers hts ++ "\n", signed_headers hts, body_checksum], r')

/-- `SigV4Auth.credential_scope`. -/
def credential_scope (region service ts : String) : String :=
  String.intercalate "/" [(ts.data.take 8).asString, region, service, "aws4_request"]

/-- `SigV4Auth.scope`. -/
def v4Scope (c : Credentials) (region service ts : String) : String :=
  c.access_key ++ "/" ++ credential_scope region service ts

/-- `SigV4Auth.signature`: the chained HMAC-SHA256 key derivation. -/
def v4Signature (C : Crypto) (c : Credentials) (region service ts sts : String) :
    String :=
  let k_date := C.hmacSha256 (utf8 ("AWS4" ++ c.secret_key)) (utf8 (ts.data.take 8).asString)
  let k_region := C.hmacSha256 k_date (utf8 region)
  let k_service := C.hmacSha256 k_region (utf8 service)
  let k_signing := C.hmacSha256 k_service (utf8 "aws4_request")
  C.hmacSha256hex k_signing (utf8 sts)

/-- `SigV4Auth._add_headers_before_signing`. -/
def add_headers_before_signing (c : Credentials) (ts : String) (h : Headers) :
    Headers :=
  let h := if hcontains h "Authorization" then delItem h "Authorization" else h
  let h := if hcontains h "Date" then h else setItem h "X-Amz-Date" ts
  if c.token ≠ "" then setItem h "X-Amz-Security-Token" c.token else h

/-- `SigV4Auth.add_auth`; `ts` is the injected `utcnow()` timestamp. -/
def sigV4AddAuth (C : Crypto) (np : String → String) (creds : Option Credentials)
    (region service ts : String) (r : Request) : Option PyErr × Request :=
  match creds with
  | .none => (some .noCredentials, r)
  | .some c =>
    let r := { r with headers := add_headers_before_signing c ts r.headers }
    match canonical_request C np r with
    | .error e => (some e, r)
    | .ok (cr, r) =>
      let sts := String.intercalate "\n"
        ["AWS4-HMAC-SHA256", ts, credential_scope region service ts,
         C.sha256hex (utf8 cr)]
      let signature := v4Signature C c region service ts sts
      let hts := headers_to_sign r
      let auth := String.intercalate ", "
        ["AWS4-HMAC-SHA256 Credential=" ++ v4Scope c region service ts,
         "SignedHeaders=" ++ signed_headers hts,
         "Signature=" ++ signature]
      (none, { r with headers := setItem r.headers "Authorization" auth })

/-! ### HmacV1Auth (legacy S3 signer) -/

/-- `HmacV1Auth.QSAOfInterest`: the fixed allow-list of query arguments. -/
def QSAOfInterest : List String :=
  ["acl", "cors", "defaultObjectAcl", "location", "logging",
   "partNumber", "policy", "requestPayment", "torrent",
   "versioning", "versionId", "versions", "website",
   "uploads", "uploadId", "response-content-type",
   "response-content-language", "response-expires",
   "response-cache-control", "response-content-disposition",
   "response-content-encoding", "delete", "lifecycle",
   "tagging", "restore", "storageClass", "notification"]

/-- `HmacV1Auth.canonical_standard_headers`. Iterates the stored names; a
name matching one of the three interesting headers contributes
`headers[key].strip()` (the FIRST value for that name); a missing
interesting header contributes the empty string. Also auto-sets `Date`.
Returns the canonical block together with the mutated header map. -/
def canonical_standard_headers (dateStr : String) (headers : Headers) :
    String × Headers :=
  let headers := if hcontains headers "Date" then headers
                 else setItem headers "Date" dateStr
  let hoi := (["content-md5", "content-type", "date"].map (fun ih =>
    let found := (hnames headers).filterMap (fun key =>
      if pyLower key = ih then (getFirst headers key).map pyStrip else Option.none)
    if found = [] then [""] else found)).foldr (· ++ ·) []
  (String.intercalate "\n" hoi, headers)

/-- `HmacV1Auth.canonical_custom_headers`: headers whose lowercased name
starts with `x-amz-`, one `name:joined-values` line per name, names
sorted; the values of a name are each stripped and comma-joined in
insertion order (no sorting of values). -/
def canonical_custom_headers (headers : Headers) : String :=
  let custom_headers : Dict := (hnames headers).foldl (fun d key =>
    if pyStartsWith (pyLower key) "x-amz-" then
      dset d (pyLower key) (String.intercalate "," ((getAll headers key).map pyStrip))
    else d) []
  let sorted_header_keys := (dkeys custom_headers).insertionSort strLe
  String.intercalate "\n"
    (sorted_header_keys.map (fun key => key ++ ":" ++ dget custom_headers key))

/-- `HmacV1Auth.unquote_v`: percent-decode the value of a `[key, value]`
pair; singletons pass through. -/
def unquote_v (nv : List String) : List String :=
  match nv with
  | [k, v] => [k, pyUnquote v]
  | other => other

/-- The sort key `itemgetter(0)` on split query pairs: the key field. -/
def pairKeyLe (a b : List String) : Prop :=
  charListLe (a.headD "").data (b.headD "").data = true

instance : DecidableRel pairKeyLe := fun a b =>
  inferInstanceAs (Decidable (charListLe (a.headD "").data (b.headD "").data = true))

/-- `HmacV1Auth.canonical_resource`: the override `auth_path` (if truthy)
or the URL path, plus `?` and the sorted, `&`-joined allow-listed query
arguments; everything else in the query is dropped. -/
def canonical_resource (authPath : String) (split : SplitUrl) : String :=
  let buf := if authPath ≠ "" then authPath else split.path
  if split.query ≠ "" then
    let qsa := (pySplit '&' split.query).map splitOnceEq
    let qsa := (qsa.filter (fun a => QSAOfInterest.contains (a.headD ""))).map unquote_v
    if qsa.length > 0 then
      let qsa := (qsa.insertionSort pairKeyLe).map (String.intercalate "=")
      buf ++ "?" ++ String.intercalate "&" qsa
    else buf
  else buf

/-- `HmacV1Auth.canonical_string`. -/
def canonical_string (dateStr : String) (method : String) (split : SplitUrl)
    (authPath : String) (headers : Headers) : String × Headers :=
  let csh := canonical_standard_headers dateStr headers
  let cs := pyUpper method ++ "\n" ++ csh.1 ++ "\n"
  let custom_headers := canonical_custom_headers csh.2
  let cs := if custom_headers ≠ "" then cs ++ custom_headers ++ "\n" else cs
  (cs ++ canonical_resource authPath split, csh.2)

/-- `HmacV1Auth.get_signature` (token header injection + HMAC-SHA1). -/
def get_signature (C : Crypto) (c : Credentials) (dateStr : String)
    (method : String) (split : SplitUrl) (authPath : String)
    (headers : Headers) : String × Headers :=
  let headers := if c.token ≠ "" then
    setItem headers "x-amz-security-token" c.token else headers
  let cs := canonical_string dateStr method split authPath headers
  (b64encode (C.hmacSha1 (utf8 c.secret_key) (utf8 cs.1)), cs.2)

/-- `HmacV1Auth.add_auth`. Note: unlike the v4 signer, it does NOT remove
a pre-existing `Authorization` header, and `Message.__setitem__` appends. -/
def hmacV1AddAuth (C : Crypto) (creds : Option Credentials) (dateStr : String)
    (authPath : String) (r : Request) : Option PyErr × Request :=
  match creds with
  | .none => (some .noCredentials, r)
  | .some c =>
    let gs := get_signature C c dateStr r.method r.url authPath r.headers
    let auth := "AWS " ++ c.access_key ++ ":" ++ gs.1
    (none, { r with headers := setItem gs.2 "Authorization" auth })

/-! ### The comparison relations are total preorders -/

theorem charListLe_total : ∀ a b : List Char,
    charListLe a b = true ∨ charListLe b a = true := by
  intro a
  induction a with
  | nil => intro b; left; rfl
  | cons x xs ih =>
    intro b
    cases b with
    | nil => right; rfl
    | cons y ys =>
      by_cases hxy : x = y
      · subst hxy
        simpa [charListLe] using ih ys
      · rcases lt_or_gt_of_ne hxy with h | h
        · left; simp [charListLe, hxy, h]
        · right; simp [charListLe, Ne.symm hxy, h]

theorem charListLe_trans : ∀ a b c : List Char,
    charListLe a b = true → charListLe b c = true → charListLe a c = true := by
  intro a
  induction a with
  | nil => intro _ _ _ _; rfl
  | cons x xs ih =>
    intro b c hab hbc
    cases b with
    | nil => simp [charListLe] at hab
    | cons y ys =>
      cases c with
      | nil => simp [charListLe] at hbc
      | cons z zs =>
        by_cases hxy : x = y <;> by_cases hyz : y = z
        · subst hxy; subst hyz
          simp only [charListLe, if_pos rfl] at *
          exact ih ys zs hab hbc
        · subst hxy
          simpa [charListLe, hyz] using hbc
        · subst hyz
          simpa [charListLe, hxy] using hab
        · simp only [charListLe, if_neg hxy, if_neg hyz, decide_eq_true_eq] at hab hbc
          have hxz : x < z := lt_trans hab hbc
          simp [charListLe, ne_of_lt hxz, hxz]

instance : IsTotal String strLe := ⟨fun a b => charListLe_total a.data b.data⟩

instance : IsTrans String strLe :=
  ⟨fun a b c => charListLe_trans a.data b.data c.data⟩

instance : IsTotal String firstCharLe :=
  ⟨fun a b => le_total (a.data.headD ' ') (b.data.headD ' ')⟩

instance : IsTrans String firstCharLe :=
  ⟨fun a b c hab hbc => le_trans (a := a.data.headD ' ') hab hbc⟩

instance : IsTotal (List String) pairKeyLe :=
  ⟨fun a b => charListLe_total (a.headD "").data (b.headD "").data⟩

instance : IsTrans (List String) pairKeyLe :=
  ⟨fun a b c => charListLe_trans (a.headD "").data (b.headD "").data (c.headD "").data⟩

/-! ### Helper lemmas about the header multi-map -/

theorem countName_append (h₁ h₂ : Headers) (n : String) :
    countName (h₁ ++ h₂) n = countName h₁ n + countName h₂ n := by
  simp [countName, List.filter_append]

theorem countName_setItem (h : Headers) (n v m : String) :
    countName (setItem h n v) m =
      countName h m + (if lowerEq n m then 1 else 0) := by
  rw [setItem, countName_append]
  cases hnm : lowerEq n m <;> simp [countName, hnm]

theorem countName_delItem (h : Headers) (n : String) :
    countName (delItem h n) n = 0 := by
  simp only [delItem, countName, List.length_eq_zero]
  rw [List.filter_filter]
  apply List.filter_eq_nil_iff.mpr
  intro p _
  cases hl : lowerEq p.1 n <;> simp [hl]

theorem countName_zero_of_not_contains (h : Headers) (n : String)
    (hnc : hcontains h n = false) : countName h n = 0 := by
  have h1 : ∀ x ∈ h, ¬(lowerEq x.1 n = true) := by
    simpa [hcontains, List.any_eq_false] using hnc
  simp only [countName, List.length_eq_zero]
  exact List.filter_eq_nil_iff.mpr h1

theorem hcontains_setItem_self (h : Headers) (n v : String) :
    hcontains (setItem h n v) n = true := by
  simp [hcontains, setItem, List.any_append, lowerEq]

/-- `payload` never touches the header map. -/
theorem payload_headers (C : Crypto) (r : Request) (s : String) (r' : Request)
    (hp : payload C r = .ok (s, r')) : r'.headers = r.headers := by
  unfold payload at hp
  cases hb : r.body <;> rw [hb] at hp
  · exact congrArg Request.headers (by injection hp with h; exact (congrArg Prod.snd h).symm) ▸ rfl
  · rename_i bs
    by_cases hs : bs ≠ ""
    · simp only [if_pos hs] at hp
      injection hp with h
      cases h; rfl
    · simp only [if_neg hs] at hp
      injection hp with h
      cases h; rfl
  · injection hp with h
    cases h; rfl
  · exact absurd hp (by simp)

/-- `body_checksum` never touches the header map. -/
theorem body_checksum_headers (C : Crypto) (r : Request) (s : String)
    (r' : Request) (hp : body_checksum C r = .ok (s, r')) :
    r'.headers = r.headers := by
  unfold body_checksum at hp
  by_cases hc : hcontains r.headers "X-Amz-Content-SHA256" = true
  · rw [if_pos hc] at hp
    injection hp with h
    cases h; rfl
  · rw [if_neg hc] at hp
    exact payload_headers C r s r' hp

/-- `canonical_request` never touches the header map. -/
theorem canonical_request_headers (C : Crypto) (np : String → String)
    (r : Request) (s : String) (r' : Request)
    (hp : canonical_request C np r = .ok (s, r')) : r'.headers = r.headers := by
  unfold canonical_request at hp
  cases hbc : body_checksum C r with
  | error e => rw [hbc] at hp; exact absurd hp (by simp)
  | ok p =>
    rw [hbc] at hp
    injection hp with h
    have : p.2 = r' := congrArg Prod.snd h
    exact this ▸ body_checksum_headers C r p.1 p.2 (by rw [hbc])

/-! ### Helper lemmas about the read loop -/

/-- The chunked read loop never changes the stream's contents. -/
theorem readLoop_data (n : Nat) (s : ByteStream) :
    ((readLoop n s).2).data = s.data := by
  refine readLoop.induct n (fun t => ((readLoop n t).2).data = t.data) ?_ ?_ s
  · intro x h
    rw [readLoop, dif_pos h]
    rfl
  · intro x h hlt ih
    rw [readLoop, dif_neg h]
    exact ih

/-! ### Concrete fixtures used to instantiate theorems with hypotheses -/

/-- Placeholder hash primitives used for witness instantiations; every
theorem below that mentions them is proved for all `Crypto` records. -/
def dummyCrypto : Crypto := ⟨fun _ => [1], fun _ _ => [2], fun _ _ => [3]⟩

def sampleCreds : Credentials :=
  { access_key := "AKID", secret_key := "SECRET", token := "" }

def sampleReq : Request :=
  { method := "GET", url := ⟨"example.com", "/", ""⟩,
    headers := [("Authorization", "AWS AKID:stale")],
    params := [], param := [], data := [], body := .none }

def emptyBodyReq : Request :=
  { method := "GET", url := ⟨"example.com", "/", ""⟩, headers := [],
    params := [], param := [], data := [], body := .none }

def sampleStream : ByteStream := ⟨[1, 2, 3], 1⟩

def streamBodyReq : Request :=
  { method := "PUT", url := ⟨"example.com", "/k", ""⟩, headers := [],
    params := [], param := [], data := [], body := .stream sampleStream }

def rawBodyReq : Request :=
  { method := "PUT", url := ⟨"example.com", "/k", ""⟩, headers := [],
    params := [], param := [], data := [], body := .rawStream ⟨[1, 2, 3], 0⟩ }

/-! ### Claim C9 -/

/-- C9: for every signer variant, `add_auth` with `credentials = None`
raises `NoCredentialsError` before performing any mutation, so the caller
still observes exactly the original request. -/
theorem addAuth_noCredentials_is_atomic (C : Crypto) (np : String → String)
    (region service ts dateStr authPath : String) (r : Request) :
    sigV2AddAuth C none ts r = (some .noCredentials, r) ∧
    sigV3AddAuth C none dateStr r = (some .noCredentials, r) ∧
    sigV4AddAuth C np none region service ts r = (some .noCredentials, r) ∧
    hmacV1AddAuth C none dateStr authPath r = (some .noCredentials, r) :=
  ⟨rfl, rfl, rfl, rfl⟩

/-! ### Claim C4 -/

/-- C4: for every seekable body stream and every starting position, the
v4 payload-hash computation leaves the stream exactly as found: same
contents and, in particular, the same read position; and `payload` on a
request with such a body returns the request unchanged. -/
theorem payload_restores_stream_position (C : Crypto) (bs : ByteStream) :
    ((payloadOnStream C bs).2).pos = bs.pos ∧
    (payloadOnStream C bs).2 = bs ∧
    (∀ r : Request, r.body = .stream bs →
      payload C r = .ok ((payloadOnStream C bs).1, r)) := by
  have hdata : ((readLoop PAYLOAD_BUFFER bs).2).data = bs.data :=
    readLoop_data PAYLOAD_BUFFER bs
  have h2 : (payloadOnStream C bs).2 = bs := by
    show bsSeek (readLoop PAYLOAD_BUFFER bs).2 (bsTell bs) = bs
    cases bs with
    | mk d p => simp_all [bsSeek, bsTell]
  refine ⟨by rw [h2], h2, ?_⟩
  intro r hr
  have hpay : payload C r =
      .ok ((payloadOnStream C bs).1,
        { r with body := .stream (payloadOnStream C bs).2 }) := by
    unfold payload
    rw [hr]
  rw [hpay, h2]
  cases r with
  | mk m u h ps p d b => simp_all

/-- Witness for C4's third conjunct at a concrete stream and request. -/
theorem payload_restores_stream_position_witness :
    payload dummyCrypto streamBodyReq =
      .ok ((payloadOnStream dummyCrypto sampleStream).1, streamBodyReq) :=
  (payload_restores_stream_position dummyCrypto sampleStream).2.2
    streamBodyReq rfl

/-! ### Claim C8 -/

/-- C8: a request with no body (absent or the empty string, both falsy in
Python) and no pre-existing `X-Amz-Content-SHA256` header gets the
hardcoded empty-string SHA-256 constant as its v4 payload hash. -/
theorem empty_body_checksum_is_constant (C : Crypto) (r : Request)
    (hh : hcontains r.headers "X-Amz-Content-SHA256" = false)
    (hb : r.body = Body.none ∨ r.body = .str "") :
    body_checksum C r = .ok (EMPTY_SHA256_HASH, r) := by
  unfold body_checksum
  rw [if_neg (by simp [hh])]
  rcases hb with h | h <;> unfold payload <;> rw [h] <;> simp

/-- Witness for C8 at a concrete empty-bodied request. -/
theorem empty_body_checksum_is_constant_witness :
    body_checksum dummyCrypto emptyBodyReq = .ok (EMPTY_SHA256_HASH, emptyBodyReq) :=
  empty_body_checksum_is_constant dummyCrypto emptyBodyReq rfl (Or.inl rfl)

/-! ### Claim C3 -/

/-- C3 counterexample: a body that must be checksummed but does not
support seeking makes `payload` fail with `AttributeError` (the string
branch calls `.encode` on the file object); `UnseekableStreamError` is
never raised anywhere in the signing module. -/
theorem unseekable_body_error_counterexample :
    payload dummyCrypto rawBodyReq = .error .attributeError ∧
    PyErr.attributeError ≠ PyErr.unseekableStream := by
  exact ⟨rfl, by decide⟩

/-- C3 amended: for every request whose body is a non-seekable stream,
the v4 payload computation fails with `AttributeError`, not with
`UnseekableStreamError`. -/
theorem unseekable_body_raises_attribute_error (C : Crypto) (r : Request)
    (bs : ByteStream) (h : r.body = .rawStream bs) :
    payload C r = .error .attributeError := by
  unfold payload
  rw [h]

/-- Witness for C3's amended theorem at a concrete request. -/
theorem unseekable_body_raises_attribute_error_witness :
    payload dummyCrypto rawBodyReq = .error .attributeError :=
  unseekable_body_raises_attribute_error dummyCrypto rawBodyReq ⟨[1, 2, 3], 0⟩ rfl

/-! ### Claim C5 -/

/-- Restatement of the spec's description of the v2 string-to-sign
(§4.2 of the spec), written independently of `calc_signature` so the two
can be compared: `METHOD\nHOST\nPATH\n` (empty path replaced by `/`)
followed by the `&`-joined, key-sorted query string whose keys are
percent-encoded with the empty safe set and whose values use safe set
`-_~`. -/
def specV2StringToSign (method host path : String) (params : Dict) : String :=
  method ++ "\n" ++ host ++ "\n" ++ (if path = "" then "/" else path) ++ "\n" ++
  String.intercalate "&" (((dkeys params).insertionSort strLe).map
    (fun k => quote k [] ++ "=" ++ quote (dget params k) ['-', '_', '~']))

/-- C5: `calc_signature` returns exactly the query string described by
the spec together with the base64 HMAC-SHA256 (keyed by the secret key)
of the UTF-8 bytes of the spec's string-to-sign; and the key order used
is genuinely sorted. -/
theorem calc_signature_matches_spec (C : Crypto) (creds : Credentials)
    (r : Request) (params : Dict) :
    calc_signature C creds r params =
      (String.intercalate "&" (((dkeys params).insertionSort strLe).map
        (fun k => quote k [] ++ "=" ++ quote (dget params k) ['-', '_', '~'])),
       b64encode (C.hmacSha256 (utf8 creds.secret_key)
         (utf8 (specV2StringToSign r.method r.url.netloc r.url.path params)))) ∧
    List.Sorted strLe ((dkeys params).insertionSort strLe) :=
  ⟨rfl, List.sorted_insertionSort strLe _⟩

/-! ### Claim C2 -/

/-- The encoded key of an encoded `key=value` pair: everything before the
first `=`. -/
def encodedKey (s : String) : String :=
  String.mk (s.data.takeWhile (fun c => c ≠ '='))

/-- C2 counterexample: neither canonical-query branch sorts by encoded
key. The raw-URL branch leaves `ab=1&aa=2` in input order (it sorts only
by the first character, stably), and the structured-params branch orders
`AB-=y` before `AB=x` because it compares whole `key=value` strings. -/
theorem canonical_query_key_sort_counterexample :
    canonical_query_string_url_list "ab=1&aa=2" = ["ab=1", "aa=2"] ∧
    ¬ strLe (encodedKey "ab=1") (encodedKey "aa=2") ∧
    canonical_query_string_params_list [("AB", "x"), ("AB-", "y")] =
      ["AB-=y", "AB=x"] ∧
    ¬ strLe (encodedKey "AB-=y") (encodedKey "AB=x") := by
  decide

/-- C2 amended: the structured-params branch sorts the whole
percent-encoded `key=value` strings lexicographically, while the
raw-URL-query branch sorts the encoded pairs only by their first
character (stably); neither branch sorts by the full encoded key. -/
theorem canonical_query_actual_sort_orders :
    (∀ params : Dict,
      List.Sorted strLe (canonical_query_string_params_list params)) ∧
    (∀ query : String,
      List.Sorted firstCharLe (canonical_query_string_url_list query)) :=
  ⟨fun _ => List.sorted_insertionSort strLe _,
   fun _ => List.sorted_insertionSort firstCharLe _⟩

/-! ### Claim C7 -/

/-- C7: the legacy S3 canonical resource appends `?` followed only by the
allow-listed query pairs, sorted by key and `&`-joined; every surviving
pair has an allow-listed key, and the concrete query
`partNumber=1&foo=bar` yields `?partNumber=1` with `foo` dropped. -/
theorem canonical_resource_keeps_only_allowlisted_args
    (authPath : String) (split : SplitUrl)
    (hq : split.query ≠ "")
    (hk : ((pySplit '&' split.query).map splitOnceEq).filter
        (fun a => QSAOfInterest.contains (a.headD "")) ≠ []) :
    canonical_resource authPath split =
      (if authPath ≠ "" then authPath else split.path) ++ "?" ++
      String.intercalate "&"
        (List.map (String.intercalate "=")
          (List.insertionSort pairKeyLe
            ((((pySplit '&' split.query).map splitOnceEq).filter
              (fun a => QSAOfInterest.contains (a.headD ""))).map unquote_v))) ∧
    (∀ a ∈ ((pySplit '&' split.query).map splitOnceEq).filter
        (fun a => QSAOfInterest.contains (a.headD "")),
      QSAOfInterest.contains (a.headD "") = true) ∧
    canonical_resource "" ⟨"h", "/bucket/key", "partNumber=1&foo=bar"⟩ =
      "/bucket/key?partNumber=1" := by
  refine ⟨?_, ?_, by decide⟩
  · have hlen : 0 < (List.map unquote_v
        (((pySplit '&' split.query).map splitOnceEq).filter
          (fun a => QSAOfInterest.contains (a.headD "")))).length := by
      rw [List.length_map]
      exact List.length_pos.mpr hk
    unfold canonical_resource
    rw [if_pos hq, if_pos hlen]
  · intro a ha
    exact (List.mem_filter.mp ha).2

/-- Witness for C7 at the concrete query `partNumber=1&foo=bar`. -/
theorem canonical_resource_keeps_only_allowlisted_args_witness :
    canonical_resource "" ⟨"h", "/bucket/key", "partNumber=1&foo=bar"⟩ =
      "/bucket/key?partNumber=1" :=
  (canonical_resource_keeps_only_allowlisted_args ""
    ⟨"h", "/bucket/key", "partNumber=1&foo=bar"⟩ (by decide) (by decide)).2.2

/-! ### Claim C6 -/

/-- C6: the canonical-headers block has one line per distinct lowercased
header name, lines sorted by name; a multi-valued name contributes one
line whose value part is its values, sorted then stripped, comma-joined;
and a synthetic `host` header from the URL authority is present whenever
the request had none. -/
theorem canonical_headers_structure (r : Request) :
    hcontains (headers_to_sign r) "host" = true ∧
    (hnames (headers_to_sign r) = (hnames r.headers).map pyLower ∨
     hnames (headers_to_sign r) = (hnames r.headers).map pyLower ++ ["host"]) ∧
    List.Sorted strLe (((hnames (headers_to_sign r)).dedup).insertionSort strLe) ∧
    (((hnames (headers_to_sign r)).dedup).insertionSort strLe).Nodup ∧
    canonical_headers (headers_to_sign r) = String.intercalate "\n"
      ((((hnames (headers_to_sign r)).dedup).insertionSort strLe).map (fun key =>
        key ++ ":" ++ String.intercalate ","
          (((getAll (headers_to_sign r) key).insertionSort strLe).map pyStrip))) := by
  refine ⟨?_, ?_, List.sorted_insertionSort strLe _,
    ((List.perm_insertionSort strLe _).nodup_iff).mpr (List.nodup_dedup _), rfl⟩
  · unfold headers_to_sign
    cases hc : hcontains (r.headers.map (fun p => (pyLower p.1, p.2))) "host" with
    | true => simp [hc]
    | false => simp [hc, hcontains_setItem_self]
  · unfold headers_to_sign
    cases hc : hcontains (r.headers.map (fun p => (pyLower p.1, p.2))) "host" with
    | true =>
      left
      simp [hc, hnames, List.map_map, Function.comp]
    | false =>
      right
      simp [hc, hnames, setItem, List.map_map, Function.comp]

/-! ### Claim C1 -/

theorem countName_auth_step_delete (h : Headers) :
    countName (if hcontains h "Authorization" then delItem h "Authorization" else h)
      "Authorization" = 0 := by
  cases ha : hcontains h "Authorization" with
  | true => simp [ha, countName_delItem]
  | false => simp [ha, countName_zero_of_not_contains h _ ha]

theorem countName_auth_step_date (ts : String) (h : Headers)
    (hz : countName h "Authorization" = 0) :
    countName (if hcontains h "Date" then h else setItem h "X-Amz-Date" ts)
      "Authorization" = 0 := by
  cases hd : hcontains h "Date" with
  | true => simpa [hd] using hz
  | false =>
    rw [if_neg (by simp [hd]), countName_setItem, hz,
      (by decide : lowerEq "X-Amz-Date" "Authorization" = false)]
    simp

theorem countName_auth_step_token (c : Credentials) (h : Headers)
    (hz : countName h "Authorization" = 0) :
    countName (if c.token ≠ "" then setItem h "X-Amz-Security-Token" c.token else h)
      "Authorization" = 0 := by
  by_cases ht : c.token ≠ ""
  · rw [if_pos ht, countName_setItem, hz,
      (by decide : lowerEq "X-Amz-Security-Token" "Authorization" = false)]
    simp
  · rw [if_neg ht]
    exact hz

/-- The v4 pre-signing step always leaves zero `Authorization` lines. -/
theorem countName_auth_after_presign (c : Credentials) (ts : String)
    (h : Headers) :
    countName (add_headers_before_signing c ts h) "Authorization" = 0 :=
  countName_auth_step_token c _ (countName_auth_step_date ts _
    (countName_auth_step_delete h))

/-- `canonical_standard_headers` only ever appends a `Date` line, so the
`Authorization` count is unchanged. -/
theorem countName_auth_canonical_standard_headers (d : String) (h : Headers) :
    countName (canonical_standard_headers d h).2 "Authorization" =
      countName h "Authorization" := by
  show countName (if hcontains h "Date" then h else setItem h "Date" d)
    "Authorization" = countName h "Authorization"
  cases hd : hcontains h "Date" with
  | true => simp [hd]
  | false =>
    rw [if_neg (by simp [hd]), countName_setItem,
      (by decide : lowerEq "Date" "Authorization" = false)]
    simp

/-- `get_signature` only ever appends token and `Date` lines, so the
`Authorization` count is unchanged. -/
theorem countName_auth_get_signature (C : Crypto) (c : Credentials)
    (d m : String) (split : SplitUrl) (ap : String) (h : Headers) :
    countName (get_signature C c d m split ap h).2 "Authorization" =
      countName h "Authorization" := by
  show countName (canonical_standard_headers d
      (if c.token ≠ "" then setItem h "x-amz-security-token" c.token else h)).2
    "Authorization" = countName h "Authorization"
  rw [countName_auth_canonical_standard_headers]
  by_cases ht : c.token ≠ ""
  · rw [if_pos ht, countName_setItem,
      (by decide : lowerEq "x-amz-security-token" "Authorization" = false)]
    simp
  · rw [if_neg ht]

/-- C1 counterexample: the legacy S3 signer does not remove a
pre-existing `Authorization` header; since `Message.__setitem__` appends,
re-signing leaves the request with two `Authorization` headers. -/
theorem hmacV1_appends_duplicate_authorization :
    countName sampleReq.headers "Authorization" = 1 ∧
    countName ((hmacV1AddAuth dummyCrypto (some sampleCreds) "D" "" sampleReq).2).headers
      "Authorization" = 2 := by
  decide

/-- C1 amended: the v4 signer removes any prior `Authorization` header
before signing, so a successful `add_auth` always ends with exactly one;
the legacy S3 signer instead appends, ending with one more
`Authorization` line than the request already carried. -/
theorem authorization_header_replacement_by_variant :
    (∀ (C : Crypto) (np : String → String) (c : Credentials)
       (region service ts : String) (r r' : Request),
       sigV4AddAuth C np (some c) region service ts r = (none, r') →
       countName r'.headers "Authorization" = 1) ∧
    (∀ (C : Crypto) (c : Credentials) (dateStr authPath : String) (r : Request),
       countName ((hmacV1AddAuth C (some c) dateStr authPath r).2).headers
         "Authorization" = countName r.headers "Authorization" + 1) := by
  constructor
  · intro C np c region service ts r r' heq
    simp only [sigV4AddAuth] at heq
    cases hcr : canonical_request C np
        { r with headers := add_headers_before_signing c ts r.headers } with
    | error e =>
      rw [hcr] at heq
      exact absurd (congrArg Prod.fst heq) (by simp)
    | ok p =>
      obtain ⟨cr, rr⟩ := p
      rw [hcr] at heq
      have hh : rr.headers = add_headers_before_signing c ts r.headers :=
        canonical_request_headers C np _ cr rr hcr
      have key : ∀ v, countName (setItem rr.headers "Authorization" v)
          "Authorization" = 1 := by
        intro v
        rw [countName_setItem, hh, countName_auth_after_presign]
        decide
      have h2 : _ = r' := congrArg Prod.snd heq
      rw [← h2]
      exact key _
  · intro C c dateStr authPath r
    show countName (setItem (get_signature C c dateStr r.method r.url authPath
        r.headers).2 "Authorization" _) "Authorization" = _
    rw [countName_setItem, countName_auth_get_signature,
      (by decide : lowerEq "Authorization" "Authorization" = true)]
    simp

/-- Witness for C1's amended theorem at a concrete re-signed request. -/
theorem authorization_header_replacement_by_variant_witness :
    countName ((sigV4AddAuth dummyCrypto id (some sampleCreds) "us-east-1" "s3"
        "20130101T000000Z" sampleReq).2).headers "Authorization" = 1 ∧
    countName ((hmacV1AddAuth dummyCrypto (some sampleCreds) "D" "" sampleReq).2).headers
      "Authorization" = countName sampleReq.headers "Authorization" + 1 :=
  ⟨authorization_header_replacement_by_variant.1 dummyCrypto id sampleCreds
      "us-east-1" "s3" "20130101T000000Z" sampleReq _ (by decide),
   authorization_header_replacement_by_variant.2 dummyCrypto sampleCreds "D" ""
      sampleReq⟩

/-! ### Claim C10 -/

/-- Header lines with each value replaced by its stripped form: two
header maps with the same names whose values differ only in surrounding
whitespace have the same `stripVals` image. -/
def stripVals (h : Headers) : Headers := h.map (fun p => (p.1, pyStrip p.2))

theorem hnames_stripVals (h : Headers) : hnames (stripVals h) = hnames h := by
  simp [hnames, stripVals, List.map_map, Function.comp]

theorem getAll_stripVals (h : Headers) (k : String) :
    getAll (stripVals h) k = (getAll h k).map pyStrip := by
  induction h with
  | nil => rfl
  | cons p t ih =>
    simp only [stripVals, List.map_cons, getAll, List.filter_cons] at ih ⊢
    by_cases hp : lowerEq p.1 k = true <;> simp [hp, ih]

theorem insertionSort_short (l : List String) (hl : l.length ≤ 1) :
    l.insertionSort strLe = l := by
  match l with
  | [] => rfl
  | [a] => rfl
  | a :: b :: t => simp at hl

/-- Any single-line header map has at most one value per name. -/
theorem getAll_singleton_len (p : String × String) (k : String) :
    (getAll [p] k).length ≤ 1 := by
  simp only [getAll, List.filter_cons, List.filter_nil]
  cases h : lowerEq p.1 k <;> simp [h]

def wsHeadersA : Headers := [("x-test", "a"), ("x-test", "b"), ("host", "h")]

def wsHeadersB : Headers := [("x-test", "a"), ("x-test", " b"), ("host", "h")]

/-- C10 counterexample: two header maps whose values differ only in
surrounding whitespace (same names, same stripped values) produce
DIFFERENT v4 canonical header blocks, because `canonical_headers` sorts
the raw values before stripping them (`a,b` versus `b,a`). -/
theorem whitespace_changes_v4_canonical_headers :
    hnames wsHeadersA = hnames wsHeadersB ∧
    wsHeadersA.map (fun p => pyStrip p.2) = wsHeadersB.map (fun p => pyStrip p.2) ∧
    canonical_headers wsHeadersA ≠ canonical_headers wsHeadersB := by
  decide

/-- C10 amended: both computations strip each value, but the v4 one sorts
the raw values first. Hence the S3 custom-headers block is invariant
under surrounding whitespace in values unconditionally, while the v4
canonical-headers block is only guaranteed invariant when no header name
carries more than one value. -/
theorem canonical_header_blocks_strip_values :
    (∀ h₁ h₂ : Headers, stripVals h₁ = stripVals h₂ →
      canonical_custom_headers h₁ = canonical_custom_headers h₂) ∧
    (∀ h₁ h₂ : Headers, stripVals h₁ = stripVals h₂ →
      (∀ k, (getAll h₁ k).length ≤ 1) →
      canonical_headers h₁ = canonical_headers h₂) := by
  constructor
  · intro h₁ h₂ hs
    have hn : hnames h₁ = hnames h₂ := by
      rw [← hnames_stripVals h₁, hs, hnames_stripVals]
    have hv : ∀ k, (getAll h₁ k).map pyStrip = (getAll h₂ k).map pyStrip := by
      intro k
      rw [← getAll_stripVals, hs, getAll_stripVals]
    have hf : (fun (d : Dict) (key : String) =>
        if pyStartsWith (pyLower key) "x-amz-" then
          dset d (pyLower key)
            (String.intercalate "," ((getAll h₁ key).map pyStrip))
        else d) = (fun (d : Dict) (key : String) =>
        if pyStartsWith (pyLower key) "x-amz-" then
          dset d (pyLower key)
            (String.intercalate "," ((getAll h₂ key).map pyStrip))
        else d) := by
      funext d key
      rw [hv key]
    unfold canonical_custom_headers
    rw [hn, hf]
  · intro h₁ h₂ hs hlen
    have hn : hnames h₁ = hnames h₂ := by
      rw [← hnames_stripVals h₁, hs, hnames_stripVals]
    have hv : ∀ k, (getAll h₁ k).map pyStrip = (getAll h₂ k).map pyStrip := by
      intro k
      rw [← getAll_stripVals, hs, getAll_stripVals]
    have hlen2 : ∀ k, (getAll h₂ k).length ≤ 1 := by
      intro k
      have hlk := congrArg List.length (hv k)
      simp only [List.length_map] at hlk
      rw [← hlk]
      exact hlen k
    have hf : (fun key => key ++ ":" ++ String.intercalate ","
        (((getAll h₁ key).insertionSort strLe).map pyStrip)) =
        (fun key => key ++ ":" ++ String.intercalate ","
          (((getAll h₂ key).insertionSort strLe).map pyStrip)) := by
      funext key
      rw [insertionSort_short _ (hlen key), insertionSort_short _ (hlen2 key),
        hv key]
    unfold canonical_headers
    rw [hn, hf]

/-- Witness for C10's amended theorem at concrete whitespace-variant
header maps. -/
theorem canonical_header_blocks_strip_values_witness :
    canonical_custom_headers [("x-amz-meta", " u"), ("x-amz-meta", "v ")] =
      canonical_custom_headers [("x-amz-meta", "u"), ("x-amz-meta", "v")] ∧
    canonical_headers [("a", " x")] = canonical_headers [("a", "x")] :=
  ⟨canonical_header_blocks_strip_values.1 _ _ (by decide),
   canonical_header_blocks_strip_values.2 _ _ (by decide)
     (fun k => getAll_singleton_len ("a", " x") k)⟩

end Botocore
